import Mathlib

/-!
Verification model of the linkleaf-core repository (Rust).

Strings are modelled as lists of characters (`Str`); Rust `i32` fields are
modelled as `Int` (no arithmetic in the modelled code can overflow an `i32`
on the inputs the claims are about); fallible operations return `Except`.
The file system is a partial map from paths to byte lists, and the
protobuf-generated message types and their codec (produced by `build.rs`
from `proto/linkleaf/v1/feed.proto`, not present in the sources) are
modelled from the spec, section 6.
-/

/-- Rust `String` / `&str` values, modelled as their character sequences. -/
abbrev Str := List Char

/-- Modelled from the spec, section 6: the protobuf-generated `DateTime`
message (`Timestamp`): seven `int32` fields, no timezone.  Equality is the
derived field-wise equality, as for the prost-generated `PartialEq`. -/
structure DateTime where
  year : Int
  month : Int
  day : Int
  hours : Int
  minutes : Int
  seconds : Int
  nanos : Int
deriving DecidableEq

/-- Modelled from the spec, section 6: the generated `Summary` message,
a wrapper holding the summary text. -/
structure Summary where
  content : Str
deriving DecidableEq

/-- Modelled from the spec, section 6: the generated `Via` message,
a wrapper holding the attribution URL. -/
structure Via where
  url : Str
deriving DecidableEq

/-- Modelled from the spec, section 6: the generated `Link` message.
`datetime`, `summary` and `via` are optional (present-versus-absent is
meaningful); `tags` is an ordered sequence. -/
structure Link where
  id : Str
  title : Str
  url : Str
  datetime : Option DateTime
  summary : Option Summary
  tags : List Str
  via : Option Via
deriving DecidableEq

instance : Inhabited Link :=
  ⟨{ id := [], title := [], url := [], datetime := none, summary := none,
     tags := [], via := none }⟩

/-- Modelled from the spec, section 6: the generated `Feed` message. -/
structure Feed where
  version : Int
  title : Str
  links : List Link
deriving DecidableEq

/-- Iterator `position`: index of the first element satisfying `p`
(`feed.links.iter().position(..)` in `add`, src/lib.rs). -/
def position (p : α → Bool) : List α → Option Nat
  | [] => none
  | x :: xs => if p x then some 0 else (position p xs).map (· + 1)

/-- `Vec::remove(pos)` restricted to in-bounds indices (the only way the
source calls it): drop the element at index `pos`, keeping the rest in
order.  Out of bounds, the Rust call would panic; the source only ever
passes an index returned by `position`, which is in bounds. -/
def removeAt : List α → Nat → List α
  | [], _ => []
  | _ :: xs, 0 => xs
  | x :: xs, n + 1 => x :: removeAt xs n

/-- Model of `update_link_in_place` (src/lib.rs, lines 23-44): take the
link at `pos` out of the feed, overwrite its payload fields, reinsert it
at the front, and return it. -/
def update_link_in_place (feed : Feed) (pos : Nat) (title url : Str)
    (date : Option DateTime) (summary : Option Summary) (tags : List Str)
    (via : Option Via) : Feed × Link :=
  let item := feed.links.getD pos default
  let item2 := { item with
                 title := title, url := url, datetime := date,
                 summary := summary, tags := tags, via := via }
  ({ feed with links := item2 :: removeAt feed.links pos }, item2)

/-- Model of `insert_new_link_front` (src/lib.rs, lines 46-67): build a
fresh link from the arguments and insert it at index 0. -/
def insert_new_link_front (feed : Feed) (id title url : Str)
    (datetime : Option DateTime) (summary : Option Summary)
    (tags : List Str) (via : Option Via) : Feed × Link :=
  let link : Link := { summary := summary, tags := tags, via := via,
                       id := id, title := title, url := url,
                       datetime := datetime }
  ({ feed with links := link :: feed.links }, link)

/-- Pure core of `add` (src/lib.rs, lines 210-277): the upsert resolution
on an in-memory feed.  `now` stands for the local wall-clock timestamp
computed once at the top of `add`; `freshId` stands for the string
rendering of the `Uuid::new_v4()` drawn in the no-id no-match branch (a
random oracle, passed in as a parameter). -/
def addToFeed (feed : Feed) (title url : Str) (summary : Option Summary)
    (tags : List Str) (via : Option Via) (id_opt : Option Str)
    (now : DateTime) (freshId : Str) : Feed × Link :=
  match id_opt with
  | some uid =>
    match position (fun l => decide (l.id = uid)) feed.links with
    | some pos =>
      update_link_in_place feed pos title url (some now) summary tags via
    | none =>
      insert_new_link_front feed uid title url (some now) summary tags via
  | none =>
    match position (fun l => decide (l.url = url)) feed.links with
    | some pos =>
      update_link_in_place feed pos title url (some now) summary tags via
    | none =>
      insert_new_link_front feed freshId title url (some now) summary tags via

/-- Modelled from the spec, section 6: signed 32-bit values are carried in
the wire format; this zigzag-style embedding of `Int` into `Nat` stands for
that carrier. -/
def zig (i : Int) : Nat :=
  if 0 ≤ i then 2 * i.toNat else 2 * (-i).toNat - 1

/-- Inverse of `zig`. -/
def unzig (n : Nat) : Int :=
  if n % 2 = 0 then ((n / 2 : Nat) : Int) else -(((n + 1) / 2 : Nat) : Int)

/-- Modelled from the spec, section 6: a string on the wire is its length
followed by its character codes. -/
def eStr (s : Str) : List Nat :=
  s.length :: s.map Char.toNat

/-- Modelled from the spec, section 6: an optional field is a presence
marker followed by the payload when present. -/
def eOpt (e : α → List Nat) : Option α → List Nat
  | none => [0]
  | some a => 1 :: e a

/-- Modelled from the spec, section 6: the seven `int32` fields of a
`Timestamp`, in declaration order. -/
def eDateTime (d : DateTime) : List Nat :=
  [zig d.year, zig d.month, zig d.day, zig d.hours, zig d.minutes,
   zig d.seconds, zig d.nanos]

/-- Modelled from the spec, section 6: a `Link` is its seven fields in
declaration order. -/
def eLink (l : Link) : List Nat :=
  eStr l.id ++ eStr l.title ++ eStr l.url ++ eOpt eDateTime l.datetime ++
    eOpt (fun s => eStr s.content) l.summary ++
    (l.tags.length :: l.tags.foldr (fun t acc => eStr t ++ acc) []) ++
    eOpt (fun v => eStr v.url) l.via

/-- Modelled from the spec, section 6: a `Feed` is its version, title and
length-prefixed link sequence.  Stands for the prost-generated
`Message::encode` on the wire (the generated codec is not in src). -/
def encodeFeed (f : Feed) : List Nat :=
  zig f.version :: eStr f.title ++
    (f.links.length :: f.links.foldr (fun l acc => eLink l ++ acc) [])

/-- Stream decoder for one `Nat` token. -/
def dNat : List Nat → Option (Nat × List Nat)
  | [] => none
  | n :: r => some (n, r)

/-- Stream decoder for `count` characters. -/
def dChars : Nat → List Nat → Option (Str × List Nat)
  | 0, r => some ([], r)
  | _ + 1, [] => none
  | k + 1, n :: r =>
    if Nat.isValidChar n then
      (dChars k r).map (fun p => (Char.ofNat n :: p.1, p.2))
    else
      none

/-- Stream decoder for a length-prefixed string. -/
def dStr (r : List Nat) : Option (Str × List Nat) :=
  match dNat r with
  | none => none
  | some (len, r1) => dChars len r1

/-- Stream decoder for an optional field. -/
def dOpt (d : List Nat → Option (α × List Nat)) (r : List Nat) :
    Option (Option α × List Nat) :=
  match dNat r with
  | none => none
  | some (0, r1) => some (none, r1)
  | some (1, r1) => (d r1).map (fun p => (some p.1, p.2))
  | some _ => none

/-- Stream decoder for a `Timestamp`. -/
def dDateTime : List Nat → Option (DateTime × List Nat)
  | y :: mo :: da :: h :: mi :: s :: na :: r =>
    some (⟨unzig y, unzig mo, unzig da, unzig h, unzig mi, unzig s,
           unzig na⟩, r)
  | _ => none

/-- Stream decoder for `count` length-prefixed strings. -/
def dStrs : Nat → List Nat → Option (List Str × List Nat)
  | 0, r => some ([], r)
  | k + 1, r =>
    match dStr r with
    | none => none
    | some (s, r1) => (dStrs k r1).map (fun p => (s :: p.1, p.2))

/-- Stream decoder for one `Link`. -/
def dLink (r : List Nat) : Option (Link × List Nat) :=
  match dStr r with
  | none => none
  | some (id, r1) =>
    match dStr r1 with
    | none => none
    | some (title, r2) =>
      match dStr r2 with
      | none => none
      | some (url, r3) =>
        match dOpt dDateTime r3 with
        | none => none
        | some (datetime, r4) =>
          match dOpt (fun s => (dStr s).map (fun p => (Summary.mk p.1, p.2))) r4 with
          | none => none
          | some (summary, r5) =>
            match dNat r5 with
            | none => none
            | some (n, r6) =>
              match dStrs n r6 with
              | none => none
              | some (tags, r7) =>
                match dOpt (fun s => (dStr s).map (fun p => (Via.mk p.1, p.2))) r7 with
                | none => none
                | some (via, r8) =>
                  some ({ id := id, title := title, url := url,
                          datetime := datetime, summary := summary,
                          tags := tags, via := via }, r8)

/-- Stream decoder for `count` links. -/
def dLinks : Nat → List Nat → Option (List Link × List Nat)
  | 0, r => some ([], r)
  | k + 1, r =>
    match dLink r with
    | none => none
    | some (l, r1) => (dLinks k r1).map (fun p => (l :: p.1, p.2))

/-- Stream decoder for a `Feed`. -/
def dFeed (r : List Nat) : Option (Feed × List Nat) :=
  match dNat r with
  | none => none
  | some (v, r1) =>
    match dStr r1 with
    | none => none
    | some (title, r2) =>
      match dNat r2 with
      | none => none
      | some (n, r3) =>
        match dLinks n r3 with
        | none => none
        | some (links, r4) =>
          some ({ version := unzig v, title := title, links := links }, r4)

/-- Modelled from the spec, section 6: the prost-generated
`Feed::decode`, requiring the whole buffer to be consumed. -/
def decodeFeed (bytes : List Nat) : Option Feed :=
  match dFeed bytes with
  | some (f, []) => some f
  | _ => none

/-- Load failures distinguished by the core (spec, section 7): the feed
file being absent, or its bytes failing to decode.  Other I/O failures
behave like `decodeError` for the purposes of `add` (both are "not
`NotFound`", src/lib.rs `is_not_found`). -/
inductive LoadErr where
  | notFound
  | decodeError
deriving DecidableEq

/-- Model of `is_not_found` (src/lib.rs, lines 17-21): does the load
error denote an absent file? -/
def is_not_found (e : LoadErr) : Bool :=
  match e with
  | .notFound => true
  | .decodeError => false

/-- The file system as a partial map from paths to byte strings. -/
def FS := Str → Option (List Nat)

/-- Split a path into its directory part (trailing slash included) and
its file name, the part after the last `/`. -/
def fileSplit (p : Str) : Str × Str :=
  let r := p.reverse.span (fun c => c != '/')
  (r.2.reverse, r.1.reverse)

/-- Split a file name into stem and optional extension, the part after
the last dot — no extension when there is no dot or when the only dot
leads the name (Rust `Path` semantics; paths whose file-name component
is `.` or `..` are not modelled). -/
def extSplit (f : Str) : Str × Option Str :=
  match f.reverse.span (fun c => c != '.') with
  | (_, []) => (f, none)
  | (e, _ :: rest) =>
    if rest = [] then (f, none) else (rest.reverse, some e.reverse)

/-- Model of Rust `Path::with_extension`: replace the file name's
extension (or append one) with `newExt`; a path with an empty file name
is returned unchanged. -/
def with_extension (p newExt : Str) : Str :=
  let d := fileSplit p
  if d.2 = [] then p
  else d.1 ++ (extSplit d.2).1 ++ '.' :: newExt

/-- Model of `fs::read_feed` (src/fs.rs, lines 39-44): read the file at
`path` and decode it, with an absent file reported as `notFound`. -/
def read_feed (fs : FS) (path : Str) : Except LoadErr Feed :=
  match fs path with
  | none => .error .notFound
  | some bytes =>
    match decodeFeed bytes with
    | some f => .ok f
    | none => .error .decodeError

/-- Model of `fs::rename`: move the file at `src` onto `dst`. -/
def renameFS (fs : FS) (src dst : Str) : FS :=
  if src = dst then fs
  else fun q => if q = dst then fs src else if q = src then none else fs q

/-- Model of `fs::write_feed` (src/fs.rs, lines 98-121): encode the feed,
write the bytes to the temporary path `path.with_extension("pb.tmp")`,
rename the temporary file onto `path`, and return the feed unchanged.
Directory creation has no counterpart in this map-based file system. -/
def write_feed (fs : FS) (path : Str) (feed : Feed) : FS × Feed :=
  let buf := encodeFeed feed
  let tmp := with_extension path ("pb.tmp".data)
  let fs1 : FS := fun q => if q = tmp then some buf else fs q
  (renameFS fs1 tmp path, feed)

/-- Model of `add` (src/lib.rs, lines 163-284): load the feed
(initializing a fresh `version = 1` feed when the file is absent), run
the upsert resolution, persist, and return the touched link.  `now` and
`freshId` are the clock and UUID oracles, as in `addToFeed`. -/
def add (fs : FS) (file : Str) (title url : Str) (summary : Option Summary)
    (tags : List Str) (via : Option Via) (id : Option Str) (now : DateTime)
    (freshId : Str) : Except LoadErr (FS × Link) :=
  match (match read_feed fs file with
         | .ok f => Except.ok f
         | .error err =>
           if is_not_found err then
             Except.ok { version := 1, title := [], links := [] }
           else Except.error err) with
  | .error e => .error e
  | .ok feed =>
    let r := addToFeed feed title url summary tags via id now freshId
    let w := write_feed fs file r.1
    .ok (w.1, r.2)

/-- Both-ends whitespace trim, the model of Rust `str::trim` (the model
uses `Char.isWhitespace`; the exotic Unicode whitespace Rust additionally
strips plays no role in any claim, and the same trim is used on both
sides of every comparison below). -/
def trim (s : Str) : Str :=
  ((s.dropWhile Char.isWhitespace).reverse.dropWhile Char.isWhitespace).reverse

/-- ASCII lowercasing of one code point, the byte-level operation Rust's
`to_ascii_lowercase` / `eq_ignore_ascii_case` perform. -/
def asciiLowerByte (n : Nat) : Nat :=
  if 65 ≤ n ∧ n ≤ 90 then n + 32 else n

/-- A string viewed as its ASCII-lowercased code sequence: the form in
which `list` compares tags (`to_ascii_lowercase` composed with viewing
the string as its codes). -/
def asciiLower (s : Str) : List Nat :=
  s.map (fun c => asciiLowerByte c.toNat)

/-- The `tag_ok` binding of the `retain` closure of `list`
(src/lib.rs, lines 330-336): some tag of the link compares equal,
ASCII-case-insensitively on code sequences, to some normalized needle;
vacuously true without a tag filter. -/
def tag_ok (tag_norms : Option (List (List Nat))) (l : Link) : Bool :=
  match tag_norms with
  | some needles =>
    l.tags.any (fun t =>
      needles.any (fun n => decide (asciiLower t = n.map asciiLowerByte)))
  | none => true

/-- The `date_ok` binding of the `retain` closure of `list`
(src/lib.rs, lines 338-341): the link's datetime is present and equal to
the filter; vacuously true without a date filter. -/
def date_ok (date_filter : Option DateTime) (l : Link) : Bool :=
  match date_filter with
  | some p =>
    match l.datetime with
    | some dt => decide (dt = p)
    | none => false
  | none => true

/-- The `retain` closure of `list` (src/lib.rs, lines 329-344), named. -/
def keepLink (tag_norms : Option (List (List Nat)))
    (date_filter : Option DateTime) (l : Link) : Bool :=
  tag_ok tag_norms l && date_ok date_filter l

/-- Filtering core of `list` (src/lib.rs, lines 320-344): normalize the
requested tags (trim, lowercase, drop empties), then retain the links
passing both filters. -/
def listFilter (feed : Feed) (tags : Option (List Str))
    (datetime : Option DateTime) : Feed :=
  let tag_norms : Option (List (List Nat)) :=
    tags.map (fun ts =>
      (ts.map (fun t => asciiLower (trim t))).filter (fun t => decide (t ≠ [])))
  { feed with links := feed.links.filter (keepLink tag_norms datetime) }

/-- Model of `list` (src/lib.rs, lines 312-347): read the feed at `file`
and apply the filters. -/
def list (fs : FS) (file : Str) (tags : Option (List Str))
    (datetime : Option DateTime) : Except LoadErr Feed :=
  match read_feed fs file with
  | .error e => .error e
  | .ok feed => .ok (listFilter feed tags datetime)

/-- Proleptic-Gregorian leap-year rule, as used by chrono. -/
def isLeapYear (y : Int) : Bool :=
  y % 4 = 0 && (y % 100 != 0 || y % 400 = 0)

/-- Length of a month in the proleptic Gregorian calendar (0 for an
out-of-range month number). -/
def daysInMonth (y : Int) (m : Nat) : Nat :=
  match m with
  | 1 => 31
  | 2 => if isLeapYear y then 29 else 28
  | 3 => 31
  | 4 => 30
  | 5 => 31
  | 6 => 30
  | 7 => 31
  | 8 => 31
  | 9 => 30
  | 10 => 31
  | 11 => 30
  | 12 => 31
  | _ => 0

/-- Decimal digits of a natural number. -/
def natStr (n : Nat) : Str :=
  (Nat.repr n).data

/-- Zero-pad to two digits. -/
def pad2 (n : Nat) : Str :=
  if n < 10 then '0' :: natStr n else natStr n

/-- Zero-pad to four digits. -/
def pad4 (n : Nat) : Str :=
  List.replicate (4 - (natStr n).length) '0' ++ natStr n

/-- Days since 1970-01-01 of a proleptic-Gregorian date (civil-days
computation). -/
def daysFromCivil (y : Int) (m d : Nat) : Int :=
  let y2 : Int := if m ≤ 2 then y - 1 else y
  let era : Int := (if 0 ≤ y2 then y2 else y2 - 399) / 400
  let yoe : Int := y2 - era * 400
  let mp : Nat := (m + 9) % 12
  let doy : Nat := (153 * mp + 2) / 5 + d - 1
  let doe : Int := yoe * 365 + yoe / 4 - yoe / 100 + (doy : Int)
  era * 146097 + doe - 719468

/-- English weekday abbreviation of a date. -/
def weekdayName (y : Int) (m d : Nat) : Str :=
  let wd := ((daysFromCivil y m d + 4) % 7).toNat
  (["Sun", "Mon", "Tue", "Wed", "Thu", "Fri", "Sat"].getD wd "").data

/-- English month abbreviation. -/
def monthName (m : Nat) : Str :=
  (["Jan", "Feb", "Mar", "Apr", "May", "Jun", "Jul", "Aug", "Sep",
    "Oct", "Nov", "Dec"].getD (m - 1) "").data

/-- Signed year rendering, at least four digits. -/
def yearStr (y : Int) : Str :=
  if y < 0 then '-' :: pad4 (-y).toNat else pad4 y.toNat

/-- RFC 2822 rendering of a valid UTC date-time, as produced by chrono's
`to_rfc2822` (exact formatting of the digits is not relied on by any
claim; only the present-versus-absent distinction is). -/
def rfc2822Render (y : Int) (m d h mi s : Nat) : Str :=
  weekdayName y m d ++ ", ".data ++ pad2 d ++ " ".data ++ monthName m ++
    " ".data ++ yearStr y ++ " ".data ++ pad2 h ++ ":".data ++ pad2 mi ++
    ":".data ++ pad2 s ++ " +0000".data

/-- Model of `DateTime::to_rfc2822` (src/lib.rs, lines 354-369).  The
`u32::try_from(..).ok()?` guards return `Ok none` on any negative field;
past them, the deprecated chrono calls `ymd(..)` and `and_hms(..)` are
`ymd_opt(..).unwrap()` / `and_hms_opt(..).unwrap()`, which panic (the
`error` case here) whenever the nonnegative fields are out of calendar
or clock range.  chrono's far-out year cutoff (around year 262000) is
not modelled; no claim involves such years. -/
def DateTime.to_rfc2822 (dt : DateTime) : Except Unit (Option Str) :=
  if dt.month < 0 then .ok none
  else if dt.day < 0 then .ok none
  else if dt.hours < 0 then .ok none
  else if dt.minutes < 0 then .ok none
  else if dt.seconds < 0 then .ok none
  else
    let m := dt.month.toNat
    let d := dt.day.toNat
    let h := dt.hours.toNat
    let mi := dt.minutes.toNat
    let s := dt.seconds.toNat
    if 1 ≤ m ∧ m ≤ 12 ∧ 1 ≤ d ∧ d ≤ daysInMonth dt.year m then
      if h ≤ 23 ∧ mi ≤ 59 ∧ s ≤ 59 then
        .ok (some (rfc2822Render dt.year m d h mi s))
      else .error ()
    else .error ()

/-- Model of `to_datetime` (src/lib.rs, lines 372-374): render an
optional timestamp, absent mapping to absent. -/
def to_datetime (o : Option DateTime) : Except Unit (Option Str) :=
  match o with
  | none => .ok none
  | some dt => dt.to_rfc2822

/-- The parts of an `rss::Item` the core fills in (`link_to_rss_item`). -/
structure RssItem where
  title : Option Str
  link : Option Str
  description : Option Str
  categories : List Str
  guid : Option Str
  pub_date : Option Str
deriving DecidableEq

/-- Model of `link_to_rss_item` (src/lib.rs, lines 441-461).  The
`error` case models the process aborting in chrono's deprecated
`ymd`/`and_hms` while the item's `pubDate` is computed. -/
def link_to_rss_item (l : Link) : Except Unit RssItem :=
  match to_datetime l.datetime with
  | .error e => .error e
  | .ok pd =>
    .ok { title := some l.title, link := some l.url,
          description := l.summary.map (fun c => c.content),
          categories := l.tags,
          guid := some ("urn:uuid:".data ++ l.id),
          pub_date := pd }

/-- End-to-end scenario of spec section 8: from `fs`, add links titled
`A`, `B`, `C` at distinct URLs with the given tag sets and no explicit
ids, then list with the tag filter `rust`. -/
def scenario (fs : FS) (path : Str) (idA idB idC : Str)
    (n1 n2 n3 : DateTime) : Except LoadErr Feed :=
  match add fs path "A".data "https://a/".data none
      ["rust".data, "async".data] none none n1 idA with
  | .error e => .error e
  | .ok (fs1, _) =>
    match add fs1 path "B".data "https://b/".data none
        ["tokio".data] none none n2 idB with
    | .error e => .error e
    | .ok (fs2, _) =>
      match add fs2 path "C".data "https://c/".data none
          ["db".data, "rust".data] none none n3 idC with
      | .error e => .error e
      | .ok (fs3, _) => list fs3 path (some ["rust".data]) none

/-- The tag-filter predicate in the words of the specification: no
filter given, or at least one of the link's own tags equals,
case-insensitively, at least one requested tag after trimming, where
empty-after-trimming requested tags are dropped. -/
def specTagPass (tags : Option (List Str)) (l : Link) : Bool :=
  match tags with
  | none => true
  | some ts =>
    l.tags.any (fun t => ts.any (fun n =>
      decide (trim n ≠ []) && decide (asciiLower t = asciiLower (trim n))))

/-- The date-filter predicate in the words of the specification: no
filter given, or the link has a datetime whose seven fields all exactly
equal the filter's fields. -/
def specDatePass (date_filter : Option DateTime) (l : Link) : Bool :=
  match date_filter with
  | none => true
  | some p =>
    match l.datetime with
    | some dt =>
      decide (dt.year = p.year ∧ dt.month = p.month ∧ dt.day = p.day ∧
        dt.hours = p.hours ∧ dt.minutes = p.minutes ∧
        dt.seconds = p.seconds ∧ dt.nanos = p.nanos)
    | none => false

/-- Decidable test that the second string starts with the first. -/
def leadsWith : Str → Str → Bool
  | [], _ => true
  | _ :: _, [] => false
  | a :: as, b :: bs => a == b && leadsWith as bs

/-- Concrete link fixture used by witnesses. -/
def wLinkA : Link :=
  { id := "aa".data, title := "t1".data, url := "u1".data,
    datetime := none, summary := none, tags := [], via := none }

/-- Concrete link fixture used by witnesses. -/
def wLinkB : Link :=
  { id := "bb".data, title := "t2".data, url := "u2".data,
    datetime := none, summary := none, tags := ["Rust".data], via := none }

/-- Concrete two-link feed fixture used by witnesses. -/
def wFeed2 : Feed :=
  { version := 1, title := "f".data, links := [wLinkA, wLinkB] }

/-- Concrete timestamp fixture used by witnesses. -/
def wNow : DateTime :=
  ⟨2025, 1, 2, 3, 4, 5, 6⟩

theorem unzig_zig (i : Int) : unzig (zig i) = i := by
  unfold zig unzig
  by_cases h : 0 ≤ i
  · simp only [if_pos h]
    omega
  · simp only [if_neg h]
    have h1 : 1 ≤ (-i).toNat := by omega
    have h2 : (2 * (-i).toNat - 1) % 2 = 1 := by omega
    simp only [h2]
    omega

theorem dChars_codes (s : Str) (r : List Nat) :
    dChars s.length (s.map Char.toNat ++ r) = some (s, r) := by
  induction s with
  | nil => simp [dChars]
  | cons c cs ih =>
    have hv : Nat.isValidChar c.toNat := c.valid
    simp [dChars, hv, ih, Char.ofNat_toNat]

theorem dStr_eStr (s : Str) (r : List Nat) :
    dStr (eStr s ++ r) = some (s, r) := by
  simp [dStr, eStr, dNat, dChars_codes]

theorem dOpt_eOpt (d : List Nat → Option (α × List Nat)) (e : α → List Nat)
    (hd : ∀ a r, d (e a ++ r) = some (a, r)) (o : Option α) (r : List Nat) :
    dOpt d (eOpt e o ++ r) = some (o, r) := by
  cases o with
  | none => simp [dOpt, eOpt, dNat]
  | some a => simp [dOpt, eOpt, dNat, hd]

theorem dDateTime_eDateTime (d : DateTime) (r : List Nat) :
    dDateTime (eDateTime d ++ r) = some (d, r) := by
  simp [dDateTime, eDateTime, unzig_zig]

theorem dStrs_folded (ts : List Str) (r : List Nat) :
    dStrs ts.length (ts.foldr (fun t acc => eStr t ++ acc) [] ++ r) =
      some (ts, r) := by
  induction ts with
  | nil => simp [dStrs]
  | cons t ts ih => simp [dStrs, List.append_assoc, dStr_eStr, ih]

theorem dOptSummary (o : Option Summary) (r : List Nat) :
    dOpt (fun s => (dStr s).map (fun p => (Summary.mk p.1, p.2)))
      (eOpt (fun s => eStr s.content) o ++ r) = some (o, r) := by
  cases o with
  | none => simp [dOpt, eOpt, dNat]
  | some a => simp [dOpt, eOpt, dNat, dStr_eStr]

theorem dOptVia (o : Option Via) (r : List Nat) :
    dOpt (fun s => (dStr s).map (fun p => (Via.mk p.1, p.2)))
      (eOpt (fun v => eStr v.url) o ++ r) = some (o, r) := by
  cases o with
  | none => simp [dOpt, eOpt, dNat]
  | some a => simp [dOpt, eOpt, dNat, dStr_eStr]

theorem dOptDateTime (o : Option DateTime) (r : List Nat) :
    dOpt dDateTime (eOpt eDateTime o ++ r) = some (o, r) := by
  cases o with
  | none => simp [dOpt, eOpt, dNat]
  | some a => simp [dOpt, eOpt, dNat, dDateTime_eDateTime]

theorem dLink_eLink (l : Link) (r : List Nat) :
    dLink (eLink l ++ r) = some (l, r) := by
  simp only [dLink, eLink, List.append_assoc, List.cons_append,
    dStr_eStr, dOptDateTime, dOptSummary, dNat, dStrs_folded, dOptVia]

theorem dLinks_folded (ls : List Link) (r : List Nat) :
    dLinks ls.length (ls.foldr (fun l acc => eLink l ++ acc) [] ++ r) =
      some (ls, r) := by
  induction ls with
  | nil => simp [dLinks]
  | cons l ls ih => simp [dLinks, List.append_assoc, dLink_eLink, ih]

theorem dFeed_encodeFeed (f : Feed) (r : List Nat) :
    dFeed (encodeFeed f ++ r) = some (f, r) := by
  simp only [dFeed, encodeFeed, List.append_assoc, List.cons_append,
    dNat, dStr_eStr, dLinks_folded, unzig_zig]

theorem decodeFeed_encodeFeed (f : Feed) :
    decodeFeed (encodeFeed f) = some f := by
  have h := dFeed_encodeFeed f []
  simp only [List.append_nil] at h
  simp [decodeFeed, h]

theorem position_eq_none {p : α → Bool} {l : List α}
    (h : ∀ x ∈ l, p x = false) : position p l = none := by
  induction l with
  | nil => rfl
  | cons x xs ih =>
    have hx := h x (List.mem_cons_self x xs)
    simp [position, hx, ih (fun a ha => h a (List.mem_cons_of_mem x ha))]

theorem position_append {p : α → Bool} (pre : List α) (x : α) (post : List α)
    (hpre : ∀ a ∈ pre, p a = false) (hx : p x = true) :
    position p (pre ++ x :: post) = some pre.length := by
  induction pre with
  | nil => simp [position, hx]
  | cons a pre ih =>
    have ha := hpre a (List.mem_cons_self a pre)
    simp [position, ha,
      ih (fun b hb => hpre b (List.mem_cons_of_mem a hb))]

theorem getD_append_length (pre : List α) (x : α) (post : List α) (d : α) :
    (pre ++ x :: post).getD pre.length d = x := by
  induction pre with
  | nil => rfl
  | cons a pre ih => simpa using ih

theorem removeAt_append_length (pre : List α) (x : α) (post : List α) :
    removeAt (pre ++ x :: post) pre.length = pre ++ post := by
  induction pre with
  | nil => rfl
  | cons a pre ih => simp [removeAt, ih]

theorem addToFeed_update_by_id (feed : Feed) (pre post : List Link)
    (l : Link) (uid title url : Str) (summary : Option Summary)
    (tags : List Str) (via : Option Via) (now : DateTime) (freshId : Str)
    (hlinks : feed.links = pre ++ l :: post) (hid : l.id = uid)
    (hpre : ∀ x ∈ pre, x.id ≠ uid) :
    addToFeed feed title url summary tags via (some uid) now freshId =
      ({ feed with links :=
          { l with title := title, url := url, datetime := some now,
                   summary := summary, tags := tags, via := via } ::
            (pre ++ post) },
       { l with title := title, url := url, datetime := some now,
                summary := summary, tags := tags, via := via }) := by
  have hpos : position (fun l' => decide (l'.id = uid)) (pre ++ l :: post) =
      some pre.length :=
    position_append pre l post
      (fun a ha => decide_eq_false (hpre a ha)) (decide_eq_true hid)
  simp only [addToFeed, hlinks, hpos, update_link_in_place,
    getD_append_length, removeAt_append_length]

theorem addToFeed_update_by_url (feed : Feed) (pre post : List Link)
    (l : Link) (title url : Str) (summary : Option Summary)
    (tags : List Str) (via : Option Via) (now : DateTime) (freshId : Str)
    (hlinks : feed.links = pre ++ l :: post) (hurl : l.url = url)
    (hpre : ∀ x ∈ pre, x.url ≠ url) :
    addToFeed feed title url summary tags via none now freshId =
      ({ feed with links :=
          { l with title := title, url := url, datetime := some now,
                   summary := summary, tags := tags, via := via } ::
            (pre ++ post) },
       { l with title := title, url := url, datetime := some now,
                summary := summary, tags := tags, via := via }) := by
  have hpos : position (fun l' => decide (l'.url = url)) (pre ++ l :: post) =
      some pre.length :=
    position_append pre l post
      (fun a ha => decide_eq_false (hpre a ha)) (decide_eq_true hurl)
  simp only [addToFeed, hlinks, hpos, update_link_in_place,
    getD_append_length, removeAt_append_length]

theorem addToFeed_insert_no_id (feed : Feed) (title url : Str)
    (summary : Option Summary) (tags : List Str) (via : Option Via)
    (now : DateTime) (freshId : Str)
    (hmiss : ∀ x ∈ feed.links, x.url ≠ url) :
    addToFeed feed title url summary tags via none now freshId =
      ({ feed with links :=
          { id := freshId, title := title, url := url,
            datetime := some now, summary := summary, tags := tags,
            via := via } :: feed.links },
       { id := freshId, title := title, url := url, datetime := some now,
         summary := summary, tags := tags, via := via }) := by
  have hpos : position (fun l' => decide (l'.url = url)) feed.links = none :=
    position_eq_none (fun a ha => decide_eq_false (hmiss a ha))
  simp only [addToFeed, hpos, insert_new_link_front]

theorem read_feed_write_feed (fs : FS) (p : Str) (f : Feed) :
    read_feed (write_feed fs p f).1 p = .ok f := by
  unfold write_feed renameFS read_feed
  by_cases h : with_extension p ("pb.tmp".data) = p
  · simp [h, decodeFeed_encodeFeed]
  · simp [h, decodeFeed_encodeFeed]

theorem write_feed_tmp_gone (fs : FS) (p : Str) (f : Feed)
    (h : with_extension p ("pb.tmp".data) ≠ p) :
    (write_feed fs p f).1 (with_extension p ("pb.tmp".data)) = none := by
  unfold write_feed renameFS
  simp [h]

theorem write_feed_other (fs : FS) (p q : Str) (f : Feed)
    (hq : q ≠ p) (ht : q ≠ with_extension p ("pb.tmp".data)) :
    (write_feed fs p f).1 q = fs q := by
  unfold write_feed renameFS
  by_cases h : with_extension p ("pb.tmp".data) = p
  · simp [h, hq]
  · simp [h, hq, ht]

theorem fileSplit_append (p : Str) : (fileSplit p).1 ++ (fileSplit p).2 = p := by
  unfold fileSplit
  simp [List.span_eq_take_drop, ← List.reverse_append]

theorem extSplit_none (f : Str) (h : (extSplit f).2 = none) :
    (extSplit f).1 = f := by
  rcases hdw : f.reverse.dropWhile (fun c => c != '.') with _ | ⟨c, rest⟩
  · simp [extSplit, hdw]
  · by_cases hr : rest = []
    · simp [extSplit, hdw, hr]
    · exfalso
      simp [extSplit, hdw, hr] at h

theorem dropWhile_cons_prop {p : α → Bool} {l : List α} {c : α}
    {rest : List α} (h : l.dropWhile p = c :: rest) : p c = false := by
  induction l with
  | nil => simp at h
  | cons a as ih =>
    by_cases hpa : p a
    · rw [List.dropWhile_cons, if_pos hpa] at h
      exact ih h
    · rw [List.dropWhile_cons, if_neg hpa] at h
      obtain ⟨h1, _⟩ := List.cons.inj h
      rw [← h1]
      exact Bool.of_not_eq_true hpa

theorem extSplit_some (f stem ext : Str) (h : extSplit f = (stem, some ext)) :
    f = stem ++ '.' :: ext ∧ '.' ∉ ext := by
  rcases hdw : f.reverse.dropWhile (fun c => c != '.') with _ | ⟨c, rest⟩
  · simp [extSplit, hdw] at h
  · by_cases hr : rest = []
    · simp [extSplit, hdw, hr] at h
    · simp only [extSplit, List.span_eq_take_drop, hdw] at h
      rw [if_neg hr] at h
      obtain ⟨h1, h2⟩ := Prod.mk.injEq .. ▸ h
      have h2' : List.reverse (List.takeWhile (fun c => c != '.') f.reverse) =
          ext := Option.some.inj h2
      have hc : c = '.' := by
        have hpc := dropWhile_cons_prop hdw
        simpa using hpc
      constructor
      · have happ := List.takeWhile_append_dropWhile
          (fun c => c != '.') f.reverse
        rw [hdw] at happ
        have hrev : f = (List.takeWhile (fun c => c != '.') f.reverse ++
            c :: rest).reverse := by
          rw [happ, List.reverse_reverse]
        rw [hrev, ← h1, ← h2', hc]
        simp
      · intro hmem
        rw [← h2', List.mem_reverse] at hmem
        have := List.mem_takeWhile_imp hmem
        simp at this

theorem with_extension_ne (p : Str) (h : (fileSplit p).2 ≠ []) :
    with_extension p ("pb.tmp".data) ≠ p := by
  intro heq
  simp only [with_extension] at heq
  rw [if_neg h] at heq
  have hp := fileSplit_append p
  cases hext : (extSplit (fileSplit p).2).2 with
  | none =>
    have hstem := extSplit_none _ hext
    rw [hstem] at heq
    have hlen1 := congrArg List.length heq
    have hlen2 := congrArg List.length hp
    simp [List.length_append] at hlen1 hlen2
    omega
  | some ext =>
    have hsplit : extSplit (fileSplit p).2 = ((extSplit (fileSplit p).2).1,
        some ext) := by
      rw [← hext]
    obtain ⟨hfa, hnd⟩ := extSplit_some _ _ _ hsplit
    have e1 : ((fileSplit p).1 ++ (extSplit (fileSplit p).2).1) ++
        ('.' :: ext) = ((fileSplit p).1 ++ (extSplit (fileSplit p).2).1) ++
        ['.', 'p', 'b', '.', 't', 'm', 'p'] := by
      rw [List.append_assoc, ← hfa, hp]
      exact heq.symm
    have e2 := List.append_cancel_left e1
    obtain ⟨-, e3⟩ := List.cons.inj e2
    apply hnd
    rw [e3]
    decide

theorem leadsWith_iff (p t : Str) :
    leadsWith p t = true ↔ ∃ suf, t = p ++ suf := by
  induction p generalizing t with
  | nil =>
    simp only [leadsWith, List.nil_append, true_iff]
    exact ⟨t, rfl⟩
  | cons a as ih =>
    cases t with
    | nil => simp [leadsWith]
    | cons b bs =>
      simp only [leadsWith, Bool.and_eq_true, beq_iff_eq, ih,
        List.cons_append, List.cons.injEq]
      constructor
      · rintro ⟨h1, suf, h2⟩
        exact ⟨suf, h1.symm, h2⟩
      · rintro ⟨suf, h1, h2⟩
        exact ⟨h1.symm, suf, h2⟩

theorem asciiLowerByte_idem (n : Nat) :
    asciiLowerByte (asciiLowerByte n) = asciiLowerByte n := by
  unfold asciiLowerByte
  by_cases h : 65 ≤ n ∧ n ≤ 90
  · rw [if_pos h, if_neg (by omega)]
  · rw [if_neg h, if_neg h]

theorem asciiLower_map_lower (s : Str) :
    (asciiLower s).map asciiLowerByte = asciiLower s := by
  unfold asciiLower
  rw [List.map_map]
  have h : asciiLowerByte ∘ (fun c : Char => asciiLowerByte c.toNat) =
      fun c : Char => asciiLowerByte c.toNat :=
    funext fun c => asciiLowerByte_idem c.toNat
  rw [h]

theorem asciiLower_eq_nil_iff (s : Str) : asciiLower s = [] ↔ s = [] := by
  simp [asciiLower]

theorem any_filter_map (f : α → β) (pr q : β → Bool) (l : List α) :
    ((l.map f).filter pr).any q = l.any (fun a => pr (f a) && q (f a)) := by
  induction l with
  | nil => rfl
  | cons a l ih =>
    by_cases h : pr (f a) <;> simp [h, ih]

theorem DateTime.eq_iff_fields (dt p : DateTime) :
    dt = p ↔ (dt.year = p.year ∧ dt.month = p.month ∧ dt.day = p.day ∧
      dt.hours = p.hours ∧ dt.minutes = p.minutes ∧
      dt.seconds = p.seconds ∧ dt.nanos = p.nanos) := by
  cases dt
  cases p
  simp

theorem date_ok_eq_spec (od : Option DateTime) (l : Link) :
    date_ok od l = specDatePass od l := by
  cases od with
  | none => rfl
  | some p =>
    cases hl : l.datetime with
    | none => simp [date_ok, specDatePass, hl]
    | some dt =>
      simp only [date_ok, specDatePass, hl]
      exact decide_eq_decide.mpr (DateTime.eq_iff_fields dt p)

theorem tag_ok_eq_spec (tags : Option (List Str)) (l : Link) :
    tag_ok (tags.map (fun ts =>
        (ts.map (fun t => asciiLower (trim t))).filter
          (fun t => decide (t ≠ [])))) l = specTagPass tags l := by
  cases tags with
  | none => rfl
  | some ts =>
    simp only [Option.map_some', tag_ok, specTagPass]
    have hfun : ∀ t : Str,
        (((ts.map (fun n => asciiLower (trim n))).filter
            (fun x => decide (x ≠ []))).any
          (fun n => decide (asciiLower t = n.map asciiLowerByte))) =
        (ts.any (fun n =>
          decide (trim n ≠ []) &&
            decide (asciiLower t = asciiLower (trim n)))) := by
      intro t
      rw [any_filter_map]
      congr 1
      funext n
      congr 1
      · exact decide_eq_decide.mpr (not_congr (asciiLower_eq_nil_iff (trim n)))
      · rw [asciiLower_map_lower]
    have : (fun t => (((ts.map (fun n => asciiLower (trim n))).filter
            (fun x => decide (x ≠ []))).any
          (fun n => decide (asciiLower t = n.map asciiLowerByte)))) =
        (fun t => (ts.any (fun n =>
          decide (trim n ≠ []) &&
            decide (asciiLower t = asciiLower (trim n))))) :=
      funext hfun
    rw [this]

theorem keepLink_eq_spec (tags : Option (List Str)) (od : Option DateTime)
    (l : Link) :
    keepLink (tags.map (fun ts =>
        (ts.map (fun t => asciiLower (trim t))).filter
          (fun t => decide (t ≠ [])))) od l =
      (specTagPass tags l && specDatePass od l) := by
  unfold keepLink
  rw [tag_ok_eq_spec, date_ok_eq_spec]

theorem add_eq_of_missing (fs : FS) (path title url : Str)
    (summary : Option Summary) (tags : List Str) (via : Option Via)
    (id : Option Str) (now : DateTime) (freshId : Str)
    (h : fs path = none) :
    add fs path title url summary tags via id now freshId =
      .ok ((write_feed fs path
              (addToFeed { version := 1, title := [], links := [] }
                title url summary tags via id now freshId).1).1,
           (addToFeed { version := 1, title := [], links := [] }
              title url summary tags via id now freshId).2) := by
  unfold add read_feed
  rw [h]
  rfl

theorem add_eq_of_read_ok (fs : FS) (path : Str) (feed : Feed)
    (title url : Str) (summary : Option Summary) (tags : List Str)
    (via : Option Via) (id : Option Str) (now : DateTime) (freshId : Str)
    (h : read_feed fs path = .ok feed) :
    add fs path title url summary tags via id now freshId =
      .ok ((write_feed fs path
              (addToFeed feed title url summary tags via id now freshId).1).1,
           (addToFeed feed title url summary tags via id now freshId).2) := by
  unfold add
  rw [h]

theorem add_eq_of_decode_error (fs : FS) (path title url : Str)
    (summary : Option Summary) (tags : List Str) (via : Option Via)
    (id : Option Str) (now : DateTime) (freshId : Str)
    (h : read_feed fs path = .error .decodeError) :
    add fs path title url summary tags via id now freshId =
      .error .decodeError := by
  unfold add
  rw [h]
  rfl

theorem listFilter_eq_spec (feed : Feed) (tags : Option (List Str))
    (od : Option DateTime) :
    listFilter feed tags od =
      { version := feed.version, title := feed.title,
        links := feed.links.filter
          (fun l => specTagPass tags l && specDatePass od l) } := by
  simp only [listFilter]
  congr 1
  have h : keepLink (tags.map (fun ts =>
      (ts.map (fun t => asciiLower (trim t))).filter
        (fun t => decide (t ≠ [])))) od =
      fun l => specTagPass tags l && specDatePass od l :=
    funext (keepLink_eq_spec tags od)
  rw [h]


/-- C1: for every feed containing a link with id equal to the explicitly
supplied id, `add` (upsert by id) leaves the link count unchanged,
overwrites that link's title, url, datetime, summary, tags and via while
preserving its id, places it at index 0 of the resulting feed, and
preserves the relative order of all other links. -/
theorem c1_upsert_by_existing_id (feed : Feed) (pre post : List Link)
    (l : Link) (uid title url : Str) (summary : Option Summary)
    (tags : List Str) (via : Option Via) (now : DateTime) (freshId : Str)
    (hlinks : feed.links = pre ++ l :: post) (hid : l.id = uid)
    (hpre : ∀ x ∈ pre, x.id ≠ uid) :
    (addToFeed feed title url summary tags via (some uid) now freshId).1.links
        = { l with title := title, url := url, datetime := some now,
                   summary := summary, tags := tags, via := via } ::
            (pre ++ post)
    ∧ (addToFeed feed title url summary tags via (some uid) now
        freshId).1.links.length = feed.links.length
    ∧ (addToFeed feed title url summary tags via (some uid) now freshId).2
        = { l with title := title, url := url, datetime := some now,
                   summary := summary, tags := tags, via := via }
    ∧ (addToFeed feed title url summary tags via (some uid) now
        freshId).2.id = l.id := by
  rw [addToFeed_update_by_id feed pre post l uid title url summary tags via
    now freshId hlinks hid hpre]
  refine ⟨rfl, ?_, rfl, rfl⟩
  rw [hlinks]
  simp only [List.length_cons, List.length_append]
  omega

/-- Witness for C1 at a concrete two-link feed whose second link carries
the supplied id. -/
theorem c1_witness :
    (wFeed2.links = [wLinkA] ++ wLinkB :: []) ∧ (wLinkB.id = "bb".data) ∧
    (∀ x ∈ [wLinkA], x.id ≠ "bb".data) ∧
    (addToFeed wFeed2 "t3".data "u3".data none ["x".data] none
        (some "bb".data) wNow "ff".data).1.links =
      { wLinkB with title := "t3".data, url := "u3".data,
                    datetime := some wNow, summary := none,
                    tags := ["x".data], via := none } :: ([wLinkA] ++ []) :=
  ⟨rfl, rfl, by decide,
   (c1_upsert_by_existing_id wFeed2 [wLinkA] [] wLinkB "bb".data "t3".data
     "u3".data none ["x".data] none wNow "ff".data rfl rfl (by decide)).1⟩

/-- C3: for every feed containing a link whose url equals the supplied
url, `add` with no explicit id preserves that link's original id (and
returns it), moves the link to index 0 with its other fields
overwritten, and does not change the link count. -/
theorem c3_upsert_by_url_preserves_id (feed : Feed) (pre post : List Link)
    (l : Link) (title url : Str) (summary : Option Summary)
    (tags : List Str) (via : Option Via) (now : DateTime) (freshId : Str)
    (hlinks : feed.links = pre ++ l :: post) (hurl : l.url = url)
    (hpre : ∀ x ∈ pre, x.url ≠ url) :
    (addToFeed feed title url summary tags via none now freshId).1.links
        = { l with title := title, url := url, datetime := some now,
                   summary := summary, tags := tags, via := via } ::
            (pre ++ post)
    ∧ (addToFeed feed title url summary tags via none now
        freshId).1.links.length = feed.links.length
    ∧ (addToFeed feed title url summary tags via none now freshId).2
        = { l with title := title, url := url, datetime := some now,
                   summary := summary, tags := tags, via := via }
    ∧ (addToFeed feed title url summary tags via none now freshId).2.id
        = l.id := by
  rw [addToFeed_update_by_url feed pre post l title url summary tags via
    now freshId hlinks hurl hpre]
  refine ⟨rfl, ?_, rfl, rfl⟩
  rw [hlinks]
  simp only [List.length_cons, List.length_append]
  omega

/-- Witness for C3 at a concrete two-link feed whose second link carries
the supplied url. -/
theorem c3_witness :
    (wFeed2.links = [wLinkA] ++ wLinkB :: []) ∧ (wLinkB.url = "u2".data) ∧
    (∀ x ∈ [wLinkA], x.url ≠ "u2".data) ∧
    (addToFeed wFeed2 "t3".data "u2".data none [] none none wNow
        "ff".data).2.id = wLinkB.id :=
  ⟨rfl, rfl, by decide,
   (c3_upsert_by_url_preserves_id wFeed2 [wLinkA] [] wLinkB "t3".data
     "u2".data none [] none wNow "ff".data rfl rfl (by decide)).2.2.2⟩

/-- C4: for every feed with no link at the supplied url, `add` with no
explicit id grows the link count by exactly one and inserts a new link
at index 0 carrying the freshly generated id — assumed, as for a fresh
UUID v4, distinct from every id already in the feed — leaving all
existing links unchanged in relative order. -/
theorem c4_add_new_url_inserts_fresh (feed : Feed) (title url : Str)
    (summary : Option Summary) (tags : List Str) (via : Option Via)
    (now : DateTime) (freshId : Str)
    (hmiss : ∀ x ∈ feed.links, x.url ≠ url)
    (hfresh : ∀ x ∈ feed.links, x.id ≠ freshId) :
    (addToFeed feed title url summary tags via none now freshId).1.links
        = { id := freshId, title := title, url := url,
            datetime := some now, summary := summary, tags := tags,
            via := via } :: feed.links
    ∧ (addToFeed feed title url summary tags via none now
        freshId).1.links.length = feed.links.length + 1
    ∧ (addToFeed feed title url summary tags via none now freshId).2
        = { id := freshId, title := title, url := url,
            datetime := some now, summary := summary, tags := tags,
            via := via }
    ∧ (addToFeed feed title url summary tags via none now freshId).2.id
        = freshId
    ∧ ∀ x ∈ feed.links,
        x.id ≠ (addToFeed feed title url summary tags via none now
          freshId).2.id := by
  rw [addToFeed_insert_no_id feed title url summary tags via now freshId
    hmiss]
  exact ⟨rfl, by simp, rfl, rfl, fun x hx => hfresh x hx⟩

/-- Witness for C4 at a concrete two-link feed and an unused url and
fresh id. -/
theorem c4_witness :
    (∀ x ∈ wFeed2.links, x.url ≠ "u9".data) ∧
    (∀ x ∈ wFeed2.links, x.id ≠ "ff".data) ∧
    (addToFeed wFeed2 "t9".data "u9".data none [] none none wNow
        "ff".data).1.links
      = { id := "ff".data, title := "t9".data, url := "u9".data,
          datetime := some wNow, summary := none, tags := [],
          via := none } :: wFeed2.links :=
  ⟨by decide, by decide,
   (c4_add_new_url_inserts_fresh wFeed2 "t9".data "u9".data none [] none
     wNow "ff".data (by decide) (by decide)).1⟩

/-- C5: an `add` on a path with no feed file substitutes a fresh Feed
with version 1, empty title and empty links, never surfacing the
NotFound condition; any other load failure (a decode error) aborts the
operation with that error. -/
theorem c5_add_missing_file_or_decode_error (fs : FS) (path title url : Str)
    (summary : Option Summary) (tags : List Str) (via : Option Via)
    (id : Option Str) (now : DateTime) (freshId : Str) :
    (fs path = none →
      add fs path title url summary tags via id now freshId =
        .ok ((write_feed fs path
                (addToFeed { version := 1, title := [], links := [] }
                  title url summary tags via id now freshId).1).1,
             (addToFeed { version := 1, title := [], links := [] }
                title url summary tags via id now freshId).2))
    ∧ ∀ bytes, fs path = some bytes → decodeFeed bytes = none →
        add fs path title url summary tags via id now freshId =
          .error .decodeError := by
  constructor
  · intro h
    exact add_eq_of_missing fs path title url summary tags via id now
      freshId h
  · intro bytes h1 h2
    apply add_eq_of_decode_error
    unfold read_feed
    rw [h1]
    simp [h2]

/-- Witness for C5: an empty store initializes a fresh feed; a store of
undecodable bytes aborts with a decode error. -/
theorem c5_witness :
    ((fun _ => none : FS) "feed.pb".data = none) ∧
    ((fun _ => some [] : FS) "feed.pb".data = some []) ∧
    decodeFeed [] = none ∧
    add (fun _ => none) "feed.pb".data "t".data "u".data none [] none none
        wNow "ff".data =
      .ok ((write_feed (fun _ => none) "feed.pb".data
              (addToFeed { version := 1, title := [], links := [] } "t".data
                "u".data none [] none none wNow "ff".data).1).1,
           (addToFeed { version := 1, title := [], links := [] } "t".data
              "u".data none [] none none wNow "ff".data).2) ∧
    add (fun _ => some []) "feed.pb".data "t".data "u".data none [] none
        none wNow "ff".data = .error .decodeError :=
  ⟨rfl, rfl, rfl,
   (c5_add_missing_file_or_decode_error (fun _ => none) "feed.pb".data
     "t".data "u".data none [] none none wNow "ff".data).1 rfl,
   (c5_add_missing_file_or_decode_error (fun _ => some []) "feed.pb".data
     "t".data "u".data none [] none none wNow "ff".data).2 [] rfl rfl⟩

/-- C6: `list` keeps a link iff it passes the tag filter (none given, or
one of the link's own tags equals, case-insensitively, some requested
tag after trimming and dropping empty requested tags) and the date
filter (none given, or a datetime whose seven fields equal the
filter's); survivors keep their relative order and the output shares
version and title with the input. -/
theorem c6_list_keeps_iff_both_filters_pass (fs : FS) (file : Str)
    (feed : Feed) (tags : Option (List Str)) (od : Option DateTime)
    (hread : read_feed fs file = .ok feed) :
    list fs file tags od =
      .ok { version := feed.version, title := feed.title,
            links := feed.links.filter
              (fun l => specTagPass tags l && specDatePass od l) } := by
  unfold list
  rw [hread]
  simp only [listFilter_eq_spec]

/-- Witness for C6 at a concrete store holding a two-link feed and a
one-tag filter. -/
theorem c6_witness :
    (read_feed (fun _ => some (encodeFeed wFeed2)) "f".data = .ok wFeed2) ∧
    list (fun _ => some (encodeFeed wFeed2)) "f".data
        (some ["rust".data]) none =
      .ok { version := wFeed2.version, title := wFeed2.title,
            links := wFeed2.links.filter
              (fun l => specTagPass (some ["rust".data]) l &&
                specDatePass none l) } :=
  ⟨by rw [read_feed]; simp [decodeFeed_encodeFeed],
   c6_list_keeps_iff_both_filters_pass (fun _ => some (encodeFeed wFeed2))
     "f".data wFeed2 (some ["rust".data]) none
     (by rw [read_feed]; simp [decodeFeed_encodeFeed])⟩

/-- C7: decoding the bytes produced by encoding any in-memory Feed
yields a Feed equal to it field for field, including the
present-versus-absent distinction of each link's datetime, summary and
via (equality is full structural equality). -/
theorem c7_decode_encode_roundtrip (f : Feed) :
    decodeFeed (encodeFeed f) = some f :=
  decodeFeed_encodeFeed f

/-- C10: a present tag filter whose requested tags are all empty or
whitespace-only (nothing survives normalization) makes `list` return
zero links — it excludes every link rather than acting like no filter. -/
theorem c10_degenerate_tag_filter_drops_all (fs : FS) (file : Str)
    (feed : Feed) (ts : List Str)
    (hread : read_feed fs file = .ok feed)
    (hnorm : (ts.map (fun t => asciiLower (trim t))).filter
      (fun t => decide (t ≠ [])) = []) :
    list fs file (some ts) none =
      .ok { version := feed.version, title := feed.title, links := [] } := by
  unfold list
  rw [hread]
  have hlinks : listFilter feed (some ts) none =
      { version := feed.version, title := feed.title, links := [] } := by
    simp only [listFilter, Option.map_some', hnorm]
    have hk : keepLink (some ([] : List (List Nat))) none = fun _ => false := by
      funext l
      simp [keepLink, tag_ok, date_ok]
    rw [hk]
    simp
  simp only [hlinks]

/-- Witness for C10 at a concrete store and a filter of one blank and
one empty requested tag. -/
theorem c10_witness :
    (read_feed (fun _ => some (encodeFeed wFeed2)) "f".data = .ok wFeed2) ∧
    (([" ".data, "".data].map (fun t => asciiLower (trim t))).filter
      (fun t => decide (t ≠ [])) = []) ∧
    list (fun _ => some (encodeFeed wFeed2)) "f".data
        (some [" ".data, "".data]) none =
      .ok { version := wFeed2.version, title := wFeed2.title, links := [] } :=
  ⟨by rw [read_feed]; simp [decodeFeed_encodeFeed], by decide,
   c10_degenerate_tag_filter_drops_all (fun _ => some (encodeFeed wFeed2))
     "f".data wFeed2 [" ".data, "".data]
     (by rw [read_feed]; simp [decodeFeed_encodeFeed]) (by decide)⟩

/-- C2 (code bug): a link whose datetime is absent does render with the
pubDate omitted, but a link whose datetime has a field out of calendar
range (month 13) makes rendering panic — chrono's deprecated
`ymd().and_hms()` unwraps — instead of degrading to "no publication
date" as the spec and the function's own documentation state. -/
theorem c2_pubdate_panics_on_out_of_range_month :
    link_to_rss_item
        { id := "x".data, title := "t".data, url := "u".data,
          datetime := some ⟨2025, 13, 1, 0, 0, 0, 0⟩, summary := none,
          tags := [], via := none } = .error ()
    ∧ link_to_rss_item
        { id := "x".data, title := "t".data, url := "u".data,
          datetime := none, summary := none, tags := [], via := none } =
      .ok { title := some "t".data, link := some "u".data,
            description := none, categories := [],
            guid := some ("urn:uuid:".data ++ "x".data),
            pub_date := none } :=
  ⟨rfl, rfl⟩

/-- C8 counterexample: the temporary path is not the destination path
extended by a suffix — for the destination `feed.data` the temporary
file is `feed.pb.tmp`, because `with_extension` replaces the
destination's extension. -/
theorem c8_counterexample_temp_path :
    ¬ ∃ suf : Str, suf ≠ [] ∧
      with_extension "feed.data".data ("pb.tmp".data) =
        "feed.data".data ++ suf := by
  rintro ⟨suf, -, hsuf⟩
  have hlead : leadsWith "feed.data".data
      (with_extension "feed.data".data ("pb.tmp".data)) = true :=
    (leadsWith_iff _ _).mpr ⟨suf, hsuf⟩
  have hfalse : leadsWith "feed.data".data
      (with_extension "feed.data".data ("pb.tmp".data)) = false := by
    decide
  rw [hfalse] at hlead
  exact Bool.false_ne_true hlead

/-- C8 (amended): for every destination path with a nonempty file name,
`save` uses the temporary path obtained from the destination by
replacing (or appending) its extension with `pb.tmp` — the destination's
directory and stem plus the recognizable suffix, equal to destination
plus `.tmp` exactly when the destination ends in `.pb`; after a
successful save no file remains at that temporary path, the destination
decodes to the saved feed, and save returns the same feed unchanged. -/
theorem c8_amended_atomic_save (fs : FS) (p : Str) (f : Feed)
    (h : (fileSplit p).2 ≠ []) :
    with_extension p ("pb.tmp".data) =
      (fileSplit p).1 ++ (extSplit (fileSplit p).2).1 ++
        '.' :: "pb.tmp".data
    ∧ (write_feed fs p f).1 (with_extension p ("pb.tmp".data)) = none
    ∧ read_feed (write_feed fs p f).1 p = .ok f
    ∧ (write_feed fs p f).2 = f := by
  refine ⟨?_, write_feed_tmp_gone fs p f (with_extension_ne p h),
    read_feed_write_feed fs p f, rfl⟩
  simp only [with_extension]
  rw [if_neg h]

/-- Witness for C8 at the destination `feed.pb` on an empty store. -/
theorem c8_witness :
    ((fileSplit "feed.pb".data).2 ≠ []) ∧
    (write_feed (fun _ => none) "feed.pb".data wFeed2).1
        (with_extension "feed.pb".data ("pb.tmp".data)) = none ∧
    read_feed (write_feed (fun _ => none) "feed.pb".data wFeed2).1
        "feed.pb".data = .ok wFeed2 ∧
    (write_feed (fun _ => none) "feed.pb".data wFeed2).2 = wFeed2 :=
  ⟨by decide,
   (c8_amended_atomic_save (fun _ => none) "feed.pb".data wFeed2
     (by decide)).2.1,
   (c8_amended_atomic_save (fun _ => none) "feed.pb".data wFeed2
     (by decide)).2.2.1,
   (c8_amended_atomic_save (fun _ => none) "feed.pb".data wFeed2
     (by decide)).2.2.2⟩

/-- C9: starting from a path with no feed file, adding link A (tags
rust, async), then B (tokio), then C (db, rust), all with no explicit
ids and distinct urls, and listing with the tag filter rust returns a
feed holding exactly C then A, in that order. -/
theorem c9_end_to_end_scenario (fs : FS) (path idA idB idC : Str)
    (n1 n2 n3 : DateTime) (h : fs path = none) :
    scenario fs path idA idB idC n1 n2 n3 =
      .ok { version := 1, title := [],
            links := [{ id := idC, title := "C".data,
                        url := "https://c/".data, datetime := some n3,
                        summary := none,
                        tags := ["db".data, "rust".data], via := none },
                      { id := idA, title := "A".data,
                        url := "https://a/".data, datetime := some n1,
                        summary := none,
                        tags := ["rust".data, "async".data],
                        via := none }] } := by
  have e1 : add fs path "A".data "https://a/".data none
      ["rust".data, "async".data] none none n1 idA =
      .ok ((write_feed fs path
        { version := 1, title := [],
          links := [{ id := idA, title := "A".data,
                      url := "https://a/".data, datetime := some n1,
                      summary := none,
                      tags := ["rust".data, "async".data],
                      via := none }] }).1,
        { id := idA, title := "A".data, url := "https://a/".data,
          datetime := some n1, summary := none,
          tags := ["rust".data, "async".data], via := none }) := by
    rw [add_eq_of_missing fs path "A".data "https://a/".data none
        ["rust".data, "async".data] none none n1 idA h,
      addToFeed_insert_no_id { version := 1, title := [], links := [] }
        "A".data "https://a/".data none ["rust".data, "async".data] none
        n1 idA (fun x hx => absurd hx (List.not_mem_nil x))]
  have r1 : read_feed (write_feed fs path
      { version := 1, title := [],
        links := [{ id := idA, title := "A".data,
                    url := "https://a/".data, datetime := some n1,
                    summary := none,
                    tags := ["rust".data, "async".data],
                    via := none }] }).1 path =
      .ok { version := 1, title := [],
            links := [{ id := idA, title := "A".data,
                        url := "https://a/".data, datetime := some n1,
                        summary := none,
                        tags := ["rust".data, "async".data],
                        via := none }] } :=
    read_feed_write_feed fs path _
  have hm2 : ∀ x ∈ ([
      { id := idA, title := "A".data,
        url := "https://a/".data, datetime := some n1,
        summary := none,
        tags := ["rust".data, "async".data],
        via := none }] : List Link),
      x.url ≠ "https://b/".data := by
    intro x hx
    rw [List.mem_singleton] at hx
    subst hx
    exact (by decide : "https://a/".data ≠ "https://b/".data)
  have e2 : add (write_feed fs path
      { version := 1, title := [],
        links := [{ id := idA, title := "A".data,
                    url := "https://a/".data, datetime := some n1,
                    summary := none,
                    tags := ["rust".data, "async".data],
                    via := none }] }).1 path "B".data "https://b/".data
      none ["tokio".data] none none n2 idB =
      .ok ((write_feed (write_feed fs path
        { version := 1, title := [],
          links := [{ id := idA, title := "A".data,
                      url := "https://a/".data, datetime := some n1,
                      summary := none,
                      tags := ["rust".data, "async".data],
                      via := none }] }).1 path
        { version := 1, title := [],
          links := [{ id := idB, title := "B".data,
                      url := "https://b/".data, datetime := some n2,
                      summary := none, tags := ["tokio".data],
                      via := none },
                    { id := idA, title := "A".data,
                      url := "https://a/".data, datetime := some n1,
                      summary := none,
                      tags := ["rust".data, "async".data],
                      via := none }] }).1,
        { id := idB, title := "B".data, url := "https://b/".data,
          datetime := some n2, summary := none, tags := ["tokio".data],
          via := none }) := by
    rw [add_eq_of_read_ok _ path _ "B".data "https://b/".data none
        ["tokio".data] none none n2 idB r1,
      addToFeed_insert_no_id _ "B".data "https://b/".data none
        ["tokio".data] none n2 idB hm2]
  have r2 := read_feed_write_feed (write_feed fs path
      { version := 1, title := [],
        links := [{ id := idA, title := "A".data,
                    url := "https://a/".data, datetime := some n1,
                    summary := none,
                    tags := ["rust".data, "async".data],
                    via := none }] }).1 path
      { version := 1, title := [],
        links := [{ id := idB, title := "B".data,
                    url := "https://b/".data, datetime := some n2,
                    summary := none, tags := ["tokio".data],
                    via := none },
                  { id := idA, title := "A".data,
                    url := "https://a/".data, datetime := some n1,
                    summary := none,
                    tags := ["rust".data, "async".data],
                    via := none }] }
  have hm3 : ∀ x ∈ ([
      { id := idB, title := "B".data,
        url := "https://b/".data, datetime := some n2,
        summary := none, tags := ["tokio".data],
        via := none },
      { id := idA, title := "A".data,
        url := "https://a/".data, datetime := some n1,
        summary := none,
        tags := ["rust".data, "async".data],
        via := none }] : List Link),
      x.url ≠ "https://c/".data := by
    intro x hx
    rcases List.mem_cons.mp hx with h1 | h2
    · subst h1
      exact (by decide : "https://b/".data ≠ "https://c/".data)
    · rw [List.mem_singleton] at h2
      subst h2
      exact (by decide : "https://a/".data ≠ "https://c/".data)
  have e3 : add (write_feed (write_feed fs path
      { version := 1, title := [],
        links := [{ id := idA, title := "A".data,
                    url := "https://a/".data, datetime := some n1,
                    summary := none,
                    tags := ["rust".data, "async".data],
                    via := none }] }).1 path
      { version := 1, title := [],
        links := [{ id := idB, title := "B".data,
                    url := "https://b/".data, datetime := some n2,
                    summary := none, tags := ["tokio".data],
                    via := none },
                  { id := idA, title := "A".data,
                    url := "https://a/".data, datetime := some n1,
                    summary := none,
                    tags := ["rust".data, "async".data],
                    via := none }] }).1 path "C".data "https://c/".data
      none ["db".data, "rust".data] none none n3 idC =
      .ok ((write_feed (write_feed (write_feed fs path
        { version := 1, title := [],
          links := [{ id := idA, title := "A".data,
                      url := "https://a/".data, datetime := some n1,
                      summary := none,
                      tags := ["rust".data, "async".data],
                      via := none }] }).1 path
        { version := 1, title := [],
          links := [{ id := idB, title := "B".data,
                      url := "https://b/".data, datetime := some n2,
                      summary := none, tags := ["tokio".data],
                      via := none },
                    { id := idA, title := "A".data,
                      url := "https://a/".data, datetime := some n1,
                      summary := none,
                      tags := ["rust".data, "async".data],
                      via := none }] }).1 path
        { version := 1, title := [],
          links := [{ id := idC, title := "C".data,
                      url := "https://c/".data, datetime := some n3,
                      summary := none,
                      tags := ["db".data, "rust".data], via := none },
                    { id := idB, title := "B".data,
                      url := "https://b/".data, datetime := some n2,
                      summary := none, tags := ["tokio".data],
                      via := none },
                    { id := idA, title := "A".data,
                      url := "https://a/".data, datetime := some n1,
                      summary := none,
                      tags := ["rust".data, "async".data],
                      via := none }] }).1,
        { id := idC, title := "C".data, url := "https://c/".data,
          datetime := some n3, summary := none,
          tags := ["db".data, "rust".data], via := none }) := by
    rw [add_eq_of_read_ok _ path _ "C".data "https://c/".data none
        ["db".data, "rust".data] none none n3 idC r2,
      addToFeed_insert_no_id _ "C".data "https://c/".data none
        ["db".data, "rust".data] none n3 idC hm3]
  have r3 := read_feed_write_feed (write_feed (write_feed fs path
      { version := 1, title := [],
        links := [{ id := idA, title := "A".data,
                    url := "https://a/".data, datetime := some n1,
                    summary := none,
                    tags := ["rust".data, "async".data],
                    via := none }] }).1 path
      { version := 1, title := [],
        links := [{ id := idB, title := "B".data,
                    url := "https://b/".data, datetime := some n2,
                    summary := none, tags := ["tokio".data],
                    via := none },
                  { id := idA, title := "A".data,
                    url := "https://a/".data, datetime := some n1,
                    summary := none,
                    tags := ["rust".data, "async".data],
                    via := none }] }).1 path
      { version := 1, title := [],
        links := [{ id := idC, title := "C".data,
                    url := "https://c/".data, datetime := some n3,
                    summary := none,
                    tags := ["db".data, "rust".data], via := none },
                  { id := idB, title := "B".data,
                    url := "https://b/".data, datetime := some n2,
                    summary := none, tags := ["tokio".data],
                    via := none },
                  { id := idA, title := "A".data,
                    url := "https://a/".data, datetime := some n1,
                    summary := none,
                    tags := ["rust".data, "async".data],
                    via := none }] }
  unfold scenario
  simp only [e1, e2, e3]
  unfold list
  rw [r3]
  rfl

/-- Witness for C9 on an empty store with concrete ids and timestamps. -/
theorem c9_witness :
    ((fun _ => none : FS) "f".data = none) ∧
    scenario (fun _ => none) "f".data "ia".data "ib".data "ic".data
        wNow wNow wNow =
      .ok { version := 1, title := [],
            links := [
              { id := "ic".data, title := "C".data,
                url := "https://c/".data, datetime := some wNow,
                summary := none, tags := ["db".data, "rust".data],
                via := none },
              { id := "ia".data, title := "A".data,
                url := "https://a/".data, datetime := some wNow,
                summary := none, tags := ["rust".data, "async".data],
                via := none }] } :=
  ⟨rfl, c9_end_to_end_scenario (fun _ => none) "f".data "ia".data
    "ib".data "ic".data wNow wNow wNow rfl⟩
